import Mathlib

/-
Verification development for the google-calendar-mcp OAuth and CLI layer.

The repository source under verification consists of src/index.ts,
src/config/TransportConfig.ts and the authentication analysis document.
The auth components (src/auth/client.ts, src/auth/server.ts,
src/auth/tokenManager.ts, src/auth/utils.ts) are not present in the tree;
where a definition embeds one of them it is either taken from the verbatim
quotation of that function in AUTHENTICATION_ANALYSIS.md, or modelled from
the specification, as stated in its doc comment.
-/

namespace GCalMcp

/-- Named failures of the authentication core, from the error table of the
specification (section 7). -/
inductive AuthError
  | NoPortAvailable
  | CredentialsNotFound
  | CredentialsMalformed
  | TokenStoreCorrupt
  | ReauthorizationRequired
  | StateMismatch
  | AuthorizationTimedOut
  | AuthorizationAlreadyInProgress
  | NetworkError
deriving DecidableEq

/- ------------------------------------------------------------------
   CallbackServer port selection.
   ------------------------------------------------------------------ -/

/-- Modelled from the spec: src/auth/server.ts is not in the source tree.
The spec (section 4.2 and section 8) fixes the scanned range as
3000 to 3005, in ascending order. -/
def portRange : List Nat := [3000, 3001, 3002, 3003, 3004, 3005]

/-- Modelled from the spec: scan a list of candidate ports in order and
take the first one that is free. -/
def scanPorts (occupied : Nat → Bool) : List Nat → Option Nat
  | [] => none
  | p :: rest => if occupied p then scanPorts occupied rest else some p

/-- Modelled from the spec: port selection for the callback server. -/
def selectPort (occupied : Nat → Bool) : Option Nat :=
  scanPorts occupied portRange

/-- Modelled from the spec: starting the interactive flow binds the first
free port of the range, and fails with NoPortAvailable when every port of
the range is occupied. -/
def startAuthFlow (occupied : Nat → Bool) : Except AuthError Nat :=
  match selectPort occupied with
  | some p => .ok p
  | none => .error .NoPortAvailable

/- ------------------------------------------------------------------
   src/config/TransportConfig.ts : parseArgs.
   ------------------------------------------------------------------ -/

/-- The environment variables read by parseArgs in
src/config/TransportConfig.ts; a value of none means the variable is
unset. -/
structure TransportEnv where
  TRANSPORT : Option String := none
  PORT : Option String := none
  HOST : Option String := none
  DEBUG : Option String := none

/-- TransportConfig from src/config/TransportConfig.ts. The field type is
declared as the union of "stdio" and "http" in the source, but the cast of
process.env.TRANSPORT bypasses that restriction, so it is a plain string
here. A port of none models NaN; a host of none models undefined. -/
structure TransportConfig where
  type : String
  port : Option Int
  host : Option String
deriving DecidableEq

/-- ServerConfig from src/config/TransportConfig.ts. skipAuth is declared
in the interface but never assigned by parseArgs. -/
structure ServerConfig where
  transport : TransportConfig
  debug : Bool
  credentialsFile : Option String := none
  tokensFile : Option String := none
  skipAuth : Option Bool := none
deriving DecidableEq

/-- JavaScript string-or-default: the expression v || dflt, where the
empty string is falsy. -/
def envOr (v : Option String) (dflt : String) : String :=
  match v with
  | some s => if s = "" then dflt else s
  | none => dflt

/-- The digits at the front of a character list. -/
def leadingDigits (cs : List Char) : List Char :=
  cs.takeWhile (fun c => c.isDigit)

/-- Numeric value of a list of decimal digits. -/
def digitsToNat (cs : List Char) : Nat :=
  cs.foldl (fun acc c => 10 * acc + (c.toNat - 48)) 0

/-- Number.parseInt(s, 10) on a possibly-undefined argument: skip leading
whitespace, read an optional sign and a decimal-digit prefix; none models
NaN. -/
def parseIntJS : Option String → Option Int
  | none => none
  | some s =>
    let cs := s.data.dropWhile (fun c => c.isWhitespace)
    match cs with
    | '-' :: rest =>
      if leadingDigits rest = [] then none
      else some (-(digitsToNat (leadingDigits rest) : Int))
    | '+' :: rest =>
      if leadingDigits rest = [] then none
      else some (digitsToNat (leadingDigits rest) : Int)
    | _ =>
      if leadingDigits cs = [] then none
      else some (digitsToNat (leadingDigits cs) : Int)

/-- The base configuration parseArgs builds from environment variables
before scanning the argument list (src/config/TransportConfig.ts lines
16-26). -/
def initialConfig (env : TransportEnv) : ServerConfig :=
  { transport :=
      { type := envOr env.TRANSPORT "stdio"
        port := match env.PORT with
          | some p => if p = "" then some 3000 else parseIntJS (some p)
          | none => some 3000
        host := some (envOr env.HOST "127.0.0.1") }
    debug := env.DEBUG = some "true" }

/-- The argument-scanning loop of parseArgs
(src/config/TransportConfig.ts lines 28-84). Each value-taking flag reads
the next argument and skips it; when the flag is the final argument its
value is undefined, modelled by the single-element cases. An invalid
--transport value leaves the configuration unchanged; --help exits the
process, modelled as none. -/
def parseLoop : ServerConfig → List String → Option ServerConfig
  | c, [] => some c
  | c, [a] =>
    if a = "--transport" then some c
    else if a = "--port" then some { c with transport.port := parseIntJS none }
    else if a = "--host" then some { c with transport.host := none }
    else if a = "--credentials-file" then some { c with credentialsFile := none }
    else if a = "--tokens-file" then some { c with tokensFile := none }
    else if a = "--debug" then some { c with debug := true }
    else if a = "--help" then none
    else some c
  | c, a :: b :: rest =>
    if a = "--transport" then
      parseLoop (if b = "stdio" ∨ b = "http" then
        { c with transport.type := b } else c) rest
    else if a = "--port" then
      parseLoop { c with transport.port := parseIntJS (some b) } rest
    else if a = "--host" then
      parseLoop { c with transport.host := some b } rest
    else if a = "--credentials-file" then
      parseLoop { c with credentialsFile := some b } rest
    else if a = "--tokens-file" then
      parseLoop { c with tokensFile := some b } rest
    else if a = "--debug" then
      parseLoop { c with debug := true } (b :: rest)
    else if a = "--help" then
      none
    else
      parseLoop c (b :: rest)

/-- parseArgs from src/config/TransportConfig.ts: environment base
configuration, then the flag loop. -/
def parseArgs (env : TransportEnv) (args : List String) : Option ServerConfig :=
  parseLoop (initialConfig env) args

/- ------------------------------------------------------------------
   src/index.ts : parseCliArgs and command dispatch.
   ------------------------------------------------------------------ -/

/-- The four flags parseCliArgs handles as commands
(src/index.ts lines 133-141). -/
def isSpecialFlag (a : String) : Bool :=
  a == "--version" || a == "-v" || a == "--help" || a == "-h"

/-- The four flags whose following argument parseCliArgs skips
(src/index.ts lines 144-152). -/
def isValueFlag (a : String) : Bool :=
  a == "--transport" || a == "--port" || a == "--host" || a == "--credentials-file"

/-- JavaScript truthiness of the command variable: undefined and the empty
string are falsy. -/
def jsFalsyOpt : Option String → Bool
  | none => true
  | some s => s == ""

/-- The test arg.startsWith with the two-dash literal, at the character
level. -/
def startsWithDashDash (a : String) : Bool :=
  match a.data with
  | '-' :: '-' :: _ => true
  | _ => false

/-- The scanning loop of parseCliArgs (src/index.ts lines 129-163), with
the accumulated command value as second argument. A version or help flag
overwrites the command unconditionally; a value-taking flag skips the
argument after it when one is left; a non-flag argument becomes the
command only while the command is still falsy. -/
def cliGo : List String → Option String → Option String
  | [], c => c
  | a :: rest, c =>
    if isSpecialFlag a then cliGo rest (some a)
    else if isValueFlag a then
      match rest with
      | [] => c
      | _ :: rest2 => cliGo rest2 c
    else if a = "--debug" then cliGo rest c
    else if jsFalsyOpt c && !(startsWithDashDash a) then cliGo rest (some a)
    else cliGo rest c

/-- parseCliArgs from src/index.ts, as a function of the argument list. -/
def parseCliArgs (args : List String) : Option String :=
  cliGo args none

/-- The actions of the dispatch switch in src/index.ts lines 171-199. -/
inductive CliTarget
  | runAuth
  | runMain
  | printVersion
  | printHelp
  | unknownCmd (c : String)
deriving DecidableEq

/-- The dispatch switch of src/index.ts lines 171-199: auth runs the auth
flow, start or an absent command runs the server, the version and help
words and flags print, anything else is an unknown command. -/
def dispatchTarget : Option String → CliTarget
  | some "auth" => .runAuth
  | some "start" => .runMain
  | none => .runMain
  | some "version" => .printVersion
  | some "--version" => .printVersion
  | some "-v" => .printVersion
  | some "help" => .printHelp
  | some "--help" => .printHelp
  | some "-h" => .printHelp
  | some c => .unknownCmd c

/-- Specification-side description of the command parseCliArgs selects:
the last version or help flag standing outside a value position; value
positions are the arguments immediately following the four value-taking
flags. -/
def lastSpecialFlag : List String → Option String
  | [] => none
  | a :: rest =>
    if isValueFlag a then
      match rest with
      | [] => none
      | _ :: rest2 => lastSpecialFlag rest2
    else lastSpecialFlag rest <|> (if isSpecialFlag a then some a else none)

/-- Specification-side description of the fallback command: the first
argument outside a value position that does not start with two dashes and
is not one of the four version or help flags. -/
def firstPlainCmd : List String → Option String
  | [] => none
  | a :: rest =>
    if isValueFlag a then
      match rest with
      | [] => none
      | _ :: rest2 => firstPlainCmd rest2
    else if !(startsWithDashDash a) && !(isSpecialFlag a) then some a
    else firstPlainCmd rest

/- ------------------------------------------------------------------
   src/auth/utils.ts : getAccountMode, quoted verbatim in
   AUTHENTICATION_ANALYSIS.md lines 92-100.
   ------------------------------------------------------------------ -/

/-- The toLowerCase call of getAccountMode, at the character level
(ASCII case folding; the Unicode tail cases of the JavaScript method do
not matter for the compared literals). -/
def toLowerJS (s : String) : String :=
  ⟨s.data.map Char.toLower⟩

/-- The environment variables read by getAccountMode; none means unset. -/
structure ModeEnv where
  GOOGLE_ACCOUNT_MODE : Option String := none
  NODE_ENV : Option String := none

/-- getAccountMode from src/auth/utils.ts, as quoted verbatim in
AUTHENTICATION_ANALYSIS.md: the lowercased GOOGLE_ACCOUNT_MODE value wins
when it is test or normal, otherwise NODE_ENV equal to test selects test
and anything else selects normal. The function reads the environment on
every call. -/
def getAccountMode (env : ModeEnv) : String :=
  let explicitMode := env.GOOGLE_ACCOUNT_MODE.map toLowerJS
  if explicitMode = some "test" then "test"
  else if explicitMode = some "normal" then "normal"
  else if env.NODE_ENV = some "test" then "test"
  else "normal"

/-- The account modes observed by a sequence of operations, given the
environment at the time of each call: getAccountMode re-reads the
environment on every call, so each operation observes the mode of its own
call-time environment. -/
def observedModes (envs : List ModeEnv) : List String :=
  envs.map getAccountMode

/- ------------------------------------------------------------------
   Credential loading (src/auth/client.ts is not in the source tree).
   ------------------------------------------------------------------ -/

/-- A JSON value, as far as credential files need: strings, arrays and
objects with ordered string-keyed fields. -/
inductive Json
  | str (s : String)
  | arr (items : List Json)
  | obj (fields : List (String × Json))

/-- First value bound to a key in a JSON object field list. -/
def jlookup : List (String × Json) → String → Option Json
  | [], _ => none
  | (k, v) :: rest, key => if k = key then some v else jlookup rest key

/-- A JSON value read as a string. -/
def asStr : Json → Option String
  | .str s => some s
  | _ => none

/-- A JSON array read as a list of strings; none when any element is not
a string. -/
def strList : List Json → Option (List String)
  | [] => some []
  | j :: rest =>
    match asStr j with
    | some s => (strList rest).map (fun ss => s :: ss)
    | none => none

/-- The normalized client identity of the spec (section 3): client id,
client secret and the ordered redirect URIs. -/
structure ClientCredentials where
  client_id : String
  client_secret : String
  redirect_uris : List String
deriving DecidableEq

/-- Modelled from the spec: the shared field shape of a credentials
object, with the invariant of section 3 that client id and client secret
are non-empty and at least one redirect URI is present. -/
def parseCredFields (j : Json) : Option ClientCredentials :=
  match j with
  | .obj fields =>
    match jlookup fields "client_id", jlookup fields "client_secret",
          jlookup fields "redirect_uris" with
    | some (.str cid), some (.str cs), some (.arr uris) =>
      match strList uris with
      | some us =>
        if cid ≠ "" ∧ cs ≠ "" ∧ us ≠ [] then some ⟨cid, cs, us⟩ else none
      | none => none
    | _, _, _ => none
  | _ => none

/-- Modelled from the spec: the loader attempts the three known shapes in
order, taking the contents of an installed field, else of a web field,
else the top-level object itself. -/
def credCandidate (j : Json) : Json :=
  match j with
  | .obj fields =>
    match jlookup fields "installed" with
    | some inner => inner
    | none =>
      match jlookup fields "web" with
      | some inner => inner
      | none => j
  | _ => j

/-- Modelled from the spec: parsing a credentials file accepts the first
structurally matching shape and fails with CredentialsMalformed when the
fields do not parse. -/
def parseCredentials (j : Json) : Except AuthError ClientCredentials :=
  match parseCredFields (credCandidate j) with
  | some c => .ok c
  | none => .error .CredentialsMalformed

/-- The shape the installed form of a credentials file gives to a field
set. -/
def credFieldsJson (cid cs : String) (uris : List String) : Json :=
  .obj [("client_id", .str cid), ("client_secret", .str cs),
        ("redirect_uris", .arr (uris.map .str))]

/-- A resolved credentials source. -/
inductive CredSource
  | explicitArg (p : String)
  | envVar (p : String)
  | defaultFile
deriving DecidableEq

/-- Modelled from the spec: credential source resolution, first match
wins, in the order explicit path argument, then the
GOOGLE_OAUTH_CREDENTIALS environment variable, then the conventional
default-location file; CredentialsNotFound when none resolves
(src/auth/client.ts is not in the source tree). -/
def resolveCredentialSource (explicitPath : Option String)
    (envCreds : Option String) (defaultFileExists : Bool) :
    Except AuthError CredSource :=
  match explicitPath with
  | some p => .ok (.explicitArg p)
  | none =>
    match envCreds with
    | some p => .ok (.envVar p)
    | none =>
      if defaultFileExists then .ok .defaultFile
      else .error .CredentialsNotFound

/-- The credential source the auth command actually resolves: runAuthServer
in src/index.ts line 43 calls initializeOAuth2Client with no argument, and
initializeOAuth2Client as quoted in AUTHENTICATION_ANALYSIS.md calls
loadCredentialsWithFallback with no argument, so no explicit path reaches
the loader; the value of the --credentials-file flag is discarded by
parseCliArgs. -/
def runAuthServerCredentialSource (envCreds : Option String)
    (defaultFileExists : Bool) : Except AuthError CredSource :=
  resolveCredentialSource none envCreds defaultFileExists

/- ------------------------------------------------------------------
   Token storage and refresh (src/auth/tokenManager.ts is not in the
   source tree).
   ------------------------------------------------------------------ -/

/-- A stored token set, from the spec (section 3): access token, optional
refresh token, absolute expiry timestamp, scopes. -/
structure TokenSet where
  access_token : String
  refresh_token : Option String
  expiry_date : Int
  scope : List String
deriving DecidableEq

/-- The MultiAccountTokens interface, as given verbatim in
AUTHENTICATION_ANALYSIS.md: one optional token set per account mode. -/
structure MultiAccountTokens where
  normal : Option TokenSet := none
  test : Option TokenSet := none
deriving DecidableEq

/-- The closed set of account modes keying the store. -/
inductive AccountMode
  | normal
  | test
deriving DecidableEq

/-- The token set stored for a mode. -/
def lookupMode (m : MultiAccountTokens) : AccountMode → Option TokenSet
  | .normal => m.normal
  | .test => m.test

/-- Update of the token set stored for a mode, leaving the sibling mode
untouched. -/
def setMode (m : MultiAccountTokens) : AccountMode → Option TokenSet → MultiAccountTokens
  | .normal, t => { m with normal := t }
  | .test, t => { m with test := t }

/-- Modelled from the spec: TokenStore.load. The store file is an optional
raw content together with a decoder; a missing file is no tokens yet, a
file whose content does not decode is TokenStoreCorrupt, and a decoded
store yields the entry of the requested mode
(src/auth/tokenManager.ts is not in the source tree). -/
def loadTokenStore (file : Option String)
    (decode : String → Option MultiAccountTokens) (mode : AccountMode) :
    Except AuthError (Option TokenSet) :=
  match file with
  | none => .ok none
  | some s =>
    match decode s with
    | none => .error .TokenStoreCorrupt
    | some m => .ok (lookupMode m mode)

/-- Outcome of a refresh exchange against the provider. -/
inductive RefreshOutcome
  | success (newAccess : String) (newExpiry : Int) (newRefresh : Option String)
  | revoked
  | transportFailure
deriving DecidableEq

/-- Modelled from the spec: ensureValid of the TokenRefresher
(section 4.4). A token whose expiry lies more than the safety margin in
the future is returned unchanged; otherwise a present refresh token drives
the exchange, whose success merges the new access token and expiry and
keeps the old refresh token unless a new one was supplied, whose
provider-side revocation maps to ReauthorizationRequired, and whose
transport failure surfaces as a network error; with no refresh token the
result is ReauthorizationRequired
(src/auth/tokenManager.ts is not in the source tree). -/
def ensureValid (now safetyMargin : Int) (outcome : RefreshOutcome)
    (t : TokenSet) : Except AuthError TokenSet :=
  if now + safetyMargin < t.expiry_date then .ok t
  else
    match t.refresh_token with
    | none => .error .ReauthorizationRequired
    | some rt =>
      match outcome with
      | .success a e nr =>
        .ok { t with access_token := a, expiry_date := e,
                     refresh_token := match nr with
                       | some r => some r
                       | none => some rt }
      | .revoked => .error .ReauthorizationRequired
      | .transportFailure => .error .NetworkError

/- ------------------------------------------------------------------
   Token file persistence and permissions.
   ------------------------------------------------------------------ -/

/-- getSecureTokenPath from src/auth/tokenManager.ts, as quoted verbatim
in AUTHENTICATION_ANALYSIS.md: the config directory is XDG_CONFIG_HOME
when set and non-empty, else .config under the home directory, and the
token file lives under google-calendar-mcp/tokens.json inside it. -/
def getSecureTokenPath (xdgConfigHome : Option String) (homeDir : String) : String :=
  let configDir := envOr xdgConfigHome (homeDir ++ "/.config")
  configDir ++ "/google-calendar-mcp/tokens.json"

/-- The on-disk token store file: permission bits and decoded content. -/
structure StoredFile where
  perm : Nat
  data : MultiAccountTokens
deriving DecidableEq

/-- Modelled from the spec: every save writes the full mapping with
owner-only permissions 0o600 (AUTHENTICATION_ANALYSIS.md, Current
Security Model; src/auth/tokenManager.ts is not in the source tree). -/
def saveTokens (fs : Option StoredFile) (mode : AccountMode) (t : TokenSet) :
    Option StoredFile :=
  let current := match fs with
    | none => {}
    | some f => f.data
  some ⟨0o600, setMode current mode (some t)⟩

/-- Modelled from the spec: deleting one mode rewrites the file without
that entry, with the same owner-only permissions. -/
def deleteTokens (fs : Option StoredFile) (mode : AccountMode) :
    Option StoredFile :=
  match fs with
  | none => none
  | some f => some ⟨0o600, setMode f.data mode none⟩

/-- The operations that touch the token store file. -/
inductive StoreOp
  | save (mode : AccountMode) (t : TokenSet)
  | del (mode : AccountMode)
  | loadOp (mode : AccountMode)
deriving DecidableEq

/-- Effect of one store operation on the file; a load leaves the file
unchanged. -/
def applyStoreOp (fs : Option StoredFile) : StoreOp → Option StoredFile
  | .save mode t => saveTokens fs mode t
  | .del mode => deleteTokens fs mode
  | .loadOp _ => fs

/-- Effect of a sequence of store operations on the file. -/
def runStoreOps (fs : Option StoredFile) : List StoreOp → Option StoredFile
  | [] => fs
  | op :: rest => runStoreOps (applyStoreOp fs op) rest

/-- The permission invariant: when the token store file exists, its mode
restricts read and write to the owning user. -/
def permOk (fs : Option StoredFile) : Prop :=
  ∀ f, fs = some f → f.perm = 0o600

/- ------------------------------------------------------------------
   Helper lemmas about port scanning.
   ------------------------------------------------------------------ -/

theorem scanPorts_eq_some (occ : Nat → Bool) :
    ∀ (l : List Nat) (p : Nat), scanPorts occ l = some p →
      ∃ pre suf, l = pre ++ p :: suf ∧ (∀ q ∈ pre, occ q = true) ∧ occ p = false := by
  intro l
  induction l with
  | nil => intro p h; simp [scanPorts] at h
  | cons a rest ih =>
    intro p h
    by_cases ha : occ a = true
    · have h' : scanPorts occ rest = some p := by
        simpa [scanPorts, ha] using h
      obtain ⟨pre, suf, hsplit, hpre, hp⟩ := ih p h'
      exact ⟨a :: pre, suf, by simp [hsplit], by
        intro q hq
        rcases List.mem_cons.mp hq with hq | hq
        · exact hq ▸ ha
        · exact hpre q hq, hp⟩
    · have ha' : occ a = false := by
        cases hv : occ a
        · rfl
        · exact absurd hv ha
      have h' : some a = some p := by
        simpa [scanPorts, ha'] using h
      obtain rfl : a = p := by exact Option.some.inj h'
      exact ⟨[], rest, by simp, by simp, ha'⟩

theorem scanPorts_all_occupied (occ : Nat → Bool) :
    ∀ l : List Nat, (∀ q ∈ l, occ q = true) → scanPorts occ l = none := by
  intro l
  induction l with
  | nil => intro _; rfl
  | cons a rest ih =>
    intro h
    have ha : occ a = true := h a (by simp)
    have hrest : ∀ q ∈ rest, occ q = true := by
      intro q hq; exact h q (List.mem_cons_of_mem a hq)
    simp [scanPorts, ha, ih hrest]

/- ------------------------------------------------------------------
   Claim theorems.
   ------------------------------------------------------------------ -/

/-- C1: for every configuration of occupied local ports, the callback
server scans the fixed range 3000 to 3005 in ascending order and binds the
first free port; in particular, when 3000 to 3004 are occupied and 3005 is
free it binds 3005; when every port of the range is occupied, starting the
flow fails with NoPortAvailable. -/
theorem C1_port_selection :
    (∀ (occ : Nat → Bool) (p : Nat), startAuthFlow occ = .ok p →
        ∃ pre suf, portRange = pre ++ p :: suf ∧
          (∀ q ∈ pre, occ q = true) ∧ occ p = false)
    ∧ (∀ occ : Nat → Bool, (∀ q ∈ portRange, occ q = true) →
        startAuthFlow occ = .error .NoPortAvailable)
    ∧ (∀ occ : Nat → Bool,
        (∀ q ∈ [3000, 3001, 3002, 3003, 3004], occ q = true) →
        occ 3005 = false → startAuthFlow occ = .ok 3005) := by
  refine ⟨?_, ?_, ?_⟩
  · intro occ p h
    have hsel : selectPort occ = some p := by
      unfold startAuthFlow at h
      cases hv : selectPort occ with
      | none => rw [hv] at h; cases h
      | some q => rw [hv] at h; cases h; rfl
    exact scanPorts_eq_some occ portRange p hsel
  · intro occ h
    have : selectPort occ = none := scanPorts_all_occupied occ portRange h
    simp [startAuthFlow, this]
  · intro occ h h5
    have h0 : occ 3000 = true := h 3000 (by simp)
    have h1 : occ 3001 = true := h 3001 (by simp)
    have h2 : occ 3002 = true := h 3002 (by simp)
    have h3 : occ 3003 = true := h 3003 (by simp)
    have h4 : occ 3004 = true := h 3004 (by simp)
    simp [startAuthFlow, selectPort, portRange, scanPorts, h0, h1, h2, h3, h4, h5]

/-- C1 witness: with ports 3000 to 3004 occupied and 3005 free, the flow
binds port 3005. -/
theorem C1_port_selection_witness :
    startAuthFlow (fun q => q != 3005) = .ok 3005 :=
  C1_port_selection.2.2 (fun q => q != 3005) (by decide) (by decide)

/-- C2 counterexample: running the auth command with a --credentials-file
value does not hand that value to the loader. parseCliArgs keeps the
command auth and discards the flag value, dispatch runs runAuthServer, and
runAuthServer resolves the credential source with no explicit path, so
with GOOGLE_OAUTH_CREDENTIALS set the environment path wins over the CLI
value, contradicting the claim that the CLI value is the first match. -/
theorem C2_cli_flag_discarded :
    parseCliArgs ["auth", "--credentials-file", "/tmp/creds.json"] = some "auth"
    ∧ dispatchTarget (some "auth") = CliTarget.runAuth
    ∧ runAuthServerCredentialSource (some "/env/creds.json") true
        = Except.ok (CredSource.envVar "/env/creds.json")
    ∧ CredSource.envVar "/env/creds.json" ≠ CredSource.explicitArg "/tmp/creds.json" :=
  ⟨by decide, rfl, rfl, by decide⟩

/-- C2 (amended): credential loading resolves its source in the order
explicit path argument, then the GOOGLE_OAUTH_CREDENTIALS environment
variable, then the conventional default-location file, first match
winning, and fails with CredentialsNotFound when none of the three
resolves; however the auth command supplies no explicit path argument:
runAuthServer calls the loader with no path, so the --credentials-file CLI
value never reaches the loader. -/
theorem C2_credential_resolution_order :
    (∀ (p : String) (env : Option String) (d : Bool),
        resolveCredentialSource (some p) env d = .ok (.explicitArg p))
    ∧ (∀ (p : String) (d : Bool),
        resolveCredentialSource none (some p) d = .ok (.envVar p))
    ∧ resolveCredentialSource none none true = .ok .defaultFile
    ∧ resolveCredentialSource none none false = .error .CredentialsNotFound
    ∧ (∀ (env : Option String) (d : Bool),
        runAuthServerCredentialSource env d = resolveCredentialSource none env d) :=
  ⟨fun _ _ _ => rfl, fun _ _ => rfl, rfl, rfl, fun _ _ => rfl⟩

theorem strList_map_str (us : List String) :
    strList (us.map Json.str) = some us := by
  induction us with
  | nil => rfl
  | cons a rest ih => simp [strList, asStr, ih]

/-- C3: for every well-formed credentials file in any of the three
accepted JSON shapes, installed, web, or flat, carrying the same
client id, client secret and redirect URIs, the loader produces the same
normalized ClientCredentials value. -/
theorem C3_credential_shapes_agree :
    ∀ (cid cs : String) (uris : List String), cid ≠ "" → cs ≠ "" → uris ≠ [] →
      parseCredentials (Json.obj [("installed", credFieldsJson cid cs uris)])
          = .ok ⟨cid, cs, uris⟩
      ∧ parseCredentials (Json.obj [("web", credFieldsJson cid cs uris)])
          = .ok ⟨cid, cs, uris⟩
      ∧ parseCredentials (credFieldsJson cid cs uris) = .ok ⟨cid, cs, uris⟩ := by
  intro cid cs uris h1 h2 h3
  have hs := strList_map_str uris
  refine ⟨?_, ?_, ?_⟩ <;>
    simp [parseCredentials, credCandidate, credFieldsJson, parseCredFields,
          jlookup, hs, h1, h2, h3]

/-- C3 witness: the three shapes agree on a concrete credential file. -/
theorem C3_credential_shapes_agree_witness :
    parseCredentials (Json.obj [("installed", credFieldsJson "id" "secret" ["http://localhost"])])
        = .ok ⟨"id", "secret", ["http://localhost"]⟩
    ∧ parseCredentials (Json.obj [("web", credFieldsJson "id" "secret" ["http://localhost"])])
        = .ok ⟨"id", "secret", ["http://localhost"]⟩
    ∧ parseCredentials (credFieldsJson "id" "secret" ["http://localhost"])
        = .ok ⟨"id", "secret", ["http://localhost"]⟩ :=
  C3_credential_shapes_agree "id" "secret" ["http://localhost"]
    (by decide) (by decide) (by simp)

/-- C4: for every stored token set whose access token is expired, with the
expiry date not beyond the safety margin, and which contains no refresh
token, ensureValid fails with ReauthorizationRequired and with no other
result. -/
theorem C4_expired_without_refresh :
    ∀ (now safetyMargin : Int) (outcome : RefreshOutcome) (t : TokenSet),
      ¬(now + safetyMargin < t.expiry_date) → t.refresh_token = none →
      ensureValid now safetyMargin outcome t = .error .ReauthorizationRequired := by
  intro now m o t hexp hrt
  simp [ensureValid, hexp, hrt]

/-- C4 witness: a concrete expired token set without refresh token fails
with ReauthorizationRequired. -/
theorem C4_expired_without_refresh_witness :
    ensureValid 1000 60 RefreshOutcome.revoked ⟨"at", none, 900, ["scope"]⟩
      = .error .ReauthorizationRequired :=
  C4_expired_without_refresh 1000 60 RefreshOutcome.revoked
    ⟨"at", none, 900, ["scope"]⟩ (by decide) rfl

/-- C5: for every account mode, loading the token store from a missing
file returns absent with no error, and the load fails, and fails only,
with TokenStoreCorrupt when the file exists but its content does not
decode. -/
theorem C5_token_store_load :
    (∀ (decode : String → Option MultiAccountTokens) (mode : AccountMode),
        loadTokenStore none decode mode = .ok none)
    ∧ (∀ (decode : String → Option MultiAccountTokens) (mode : AccountMode) (s : String),
        decode s = none →
        loadTokenStore (some s) decode mode = .error .TokenStoreCorrupt)
    ∧ (∀ (decode : String → Option MultiAccountTokens) (mode : AccountMode)
          (s : String) (m : MultiAccountTokens), decode s = some m →
        loadTokenStore (some s) decode mode = .ok (lookupMode m mode))
    ∧ (∀ (file : Option String) (decode : String → Option MultiAccountTokens)
          (mode : AccountMode) (e : AuthError),
        loadTokenStore file decode mode = .error e →
        e = .TokenStoreCorrupt ∧ ∃ s, file = some s ∧ decode s = none) := by
  refine ⟨fun _ _ => rfl, ?_, ?_, ?_⟩
  · intro decode mode s h
    simp [loadTokenStore, h]
  · intro decode mode s m h
    simp [loadTokenStore, h]
  · intro file decode mode e h
    match file with
    | none => simp [loadTokenStore] at h
    | some s =>
      cases hd : decode s with
      | none =>
        simp [loadTokenStore, hd] at h
        exact ⟨h.symm, s, rfl, hd⟩
      | some m => simp [loadTokenStore, hd] at h

/-- C5 witness: a concrete store file whose content does not decode fails
with TokenStoreCorrupt. -/
theorem C5_token_store_load_witness :
    loadTokenStore (some "not json") (fun _ => none) AccountMode.normal
      = .error .TokenStoreCorrupt :=
  C5_token_store_load.2.1 (fun _ => none) AccountMode.normal "not json" rfl

theorem permOk_saveTokens (fs : Option StoredFile) (mode : AccountMode)
    (t : TokenSet) : permOk (saveTokens fs mode t) := by
  intro f hf
  cases fs with
  | none =>
    simp [saveTokens] at hf
    simp [← hf]
  | some g =>
    simp [saveTokens] at hf
    simp [← hf]

theorem permOk_deleteTokens (fs : Option StoredFile) (mode : AccountMode) :
    permOk (deleteTokens fs mode) := by
  intro f hf
  cases fs with
  | none => simp [deleteTokens] at hf
  | some g =>
    simp [deleteTokens] at hf
    simp [← hf]

theorem permOk_applyStoreOp (fs : Option StoredFile) (op : StoreOp)
    (h : permOk fs) : permOk (applyStoreOp fs op) := by
  cases op with
  | save mode t => exact permOk_saveTokens fs mode t
  | del mode => exact permOk_deleteTokens fs mode
  | loadOp _ => exact h

theorem permOk_runStoreOps :
    ∀ (ops : List StoreOp) (fs : Option StoredFile), permOk fs →
      permOk (runStoreOps fs ops) := by
  intro ops
  induction ops with
  | nil => intro fs h; exact h
  | cons op rest ih =>
    intro fs h
    exact ih _ (permOk_applyStoreOp fs op h)

/-- C6: after every token store write the store file carries owner-only
permissions 0o600, the invariant is preserved by every operation that
touches the file, and the file lives at XDG_CONFIG_HOME, or .config under
the home directory, under google-calendar-mcp/tokens.json. -/
theorem C6_token_file_permissions :
    (∀ (fs : Option StoredFile) (mode : AccountMode) (t : TokenSet),
        permOk (saveTokens fs mode t))
    ∧ (∀ (fs : Option StoredFile) (ops : List StoreOp), permOk fs →
        permOk (runStoreOps fs ops))
    ∧ (∀ (d home : String), d ≠ "" →
        getSecureTokenPath (some d) home = d ++ "/google-calendar-mcp/tokens.json")
    ∧ (∀ home : String,
        getSecureTokenPath none home
          = home ++ "/.config/google-calendar-mcp/tokens.json") := by
  refine ⟨permOk_saveTokens, fun fs ops h => permOk_runStoreOps ops fs h, ?_, ?_⟩
  · intro d home hd
    simp [getSecureTokenPath, envOr, hd]
  · intro home
    simp only [getSecureTokenPath, envOr]
    rw [String.append_assoc]
    rfl

/-- C6 witness: a concrete write to a previously missing store leaves a
file with owner-only permissions. -/
theorem C6_token_file_permissions_witness :
    permOk (runStoreOps none
      [StoreOp.save AccountMode.normal ⟨"at", some "rt", 1000, ["s"]⟩]) :=
  C6_token_file_permissions.2.1 none
    [StoreOp.save AccountMode.normal ⟨"at", some "rt", 1000, ["s"]⟩]
    (fun _ hf => Option.noConfusion hf)

/-- C7: getAccountMode returns test when the lowercased
GOOGLE_ACCOUNT_MODE equals test, normal when it equals normal, and
otherwise test exactly when NODE_ENV equals test and normal in every other
case; the result always lies in the two-element set of normal and test. -/
theorem C7_account_mode_resolution :
    (∀ env : ModeEnv, env.GOOGLE_ACCOUNT_MODE.map toLowerJS = some "test" →
        getAccountMode env = "test")
    ∧ (∀ env : ModeEnv, env.GOOGLE_ACCOUNT_MODE.map toLowerJS = some "normal" →
        getAccountMode env = "normal")
    ∧ (∀ env : ModeEnv, env.GOOGLE_ACCOUNT_MODE.map toLowerJS ≠ some "test" →
        env.GOOGLE_ACCOUNT_MODE.map toLowerJS ≠ some "normal" →
        getAccountMode env = if env.NODE_ENV = some "test" then "test" else "normal")
    ∧ (∀ env : ModeEnv, getAccountMode env = "normal" ∨ getAccountMode env = "test") := by
  refine ⟨?_, ?_, ?_, ?_⟩
  · intro env h
    simp [getAccountMode, h]
  · intro env h
    simp [getAccountMode, h]
  · intro env h1 h2
    simp [getAccountMode, h1, h2]
  · intro env
    by_cases h1 : env.GOOGLE_ACCOUNT_MODE.map toLowerJS = some "test"
    · simp [getAccountMode, h1]
    · by_cases h2 : env.GOOGLE_ACCOUNT_MODE.map toLowerJS = some "normal"
      · simp [getAccountMode, h1, h2]
      · by_cases h3 : env.NODE_ENV = some "test" <;>
          simp [getAccountMode, h1, h2, h3]

/-- C7 witness: an uppercase GOOGLE_ACCOUNT_MODE value TEST resolves to
test. -/
theorem C7_account_mode_resolution_witness :
    getAccountMode ⟨some "TEST", none⟩ = "test" :=
  C7_account_mode_resolution.1 ⟨some "TEST", none⟩ (by decide)

/-- C8 counterexample: two operations of one process, with
GOOGLE_ACCOUNT_MODE changed between their calls, observe different account
modes, since getAccountMode re-reads the environment on every call; the
claim that every operation of a process observes the same mode even when
the environment changes is false. -/
theorem C8_runtime_mode_switch :
    observedModes [⟨some "normal", none⟩, ⟨some "test", none⟩] = ["normal", "test"]
    ∧ ("normal" : String) ≠ "test" :=
  ⟨rfl, by decide⟩

/-- C8 (amended): the account mode is not latched at process start;
getAccountMode computes the mode from the environment at each call, so the
mode an operation observes is exactly a function of the
GOOGLE_ACCOUNT_MODE and NODE_ENV values at call time and changes when
those variables change. -/
theorem C8_mode_function_of_call_env :
    ∀ e1 e2 : ModeEnv, e1.GOOGLE_ACCOUNT_MODE = e2.GOOGLE_ACCOUNT_MODE →
      e1.NODE_ENV = e2.NODE_ENV → getAccountMode e1 = getAccountMode e2 := by
  intro e1 e2 h1 h2
  simp [getAccountMode, h1, h2]

/-- C8 witness: the amended mode determinism at a concrete environment. -/
theorem C8_mode_function_of_call_env_witness :
    getAccountMode ⟨some "test", some "production"⟩
      = getAccountMode ⟨some "test", some "production"⟩ :=
  C8_mode_function_of_call_env ⟨some "test", some "production"⟩
    ⟨some "test", some "production"⟩ rfl rfl

/-- C9 counterexample: with the TRANSPORT environment variable set to the
empty string, parseArgs yields transport type stdio, not the value of the
variable, so the claim that the prior value is the TRANSPORT variable
whenever it is set, and that an arbitrary TRANSPORT string appears as the
transport type, fails at the empty string. -/
theorem C9_empty_transport_env :
    (parseArgs { TRANSPORT := some "" } []).map (fun c => c.transport.type)
      = some "stdio"
    ∧ ("stdio" : String) ≠ "" :=
  ⟨rfl, by decide⟩

/-- C9 (amended): parseArgs validates the CLI transport flag but not the
environment variable: a --transport flag whose value is neither stdio nor
http is silently ignored, leaving the configuration as it was before the
flag; the initial transport type is the TRANSPORT environment variable
when set to a non-empty string and stdio otherwise, so any non-empty
TRANSPORT string appears unvalidated as the transport type. -/
theorem C9_transport_validation_asymmetry :
    (∀ (c : ServerConfig) (s : String) (rest : List String),
        s ≠ "stdio" → s ≠ "http" →
        parseLoop c ("--transport" :: s :: rest) = parseLoop c rest)
    ∧ (∀ (env : TransportEnv) (t : String), env.TRANSPORT = some t → t ≠ "" →
        (initialConfig env).transport.type = t)
    ∧ (∀ env : TransportEnv, env.TRANSPORT = none ∨ env.TRANSPORT = some "" →
        (initialConfig env).transport.type = "stdio")
    ∧ (∀ env : TransportEnv, parseArgs env [] = some (initialConfig env)) := by
  refine ⟨?_, ?_, ?_, fun env => rfl⟩
  · intro c s rest h1 h2
    simp [parseLoop, h1, h2]
  · intro env t h1 h2
    simp [initialConfig, envOr, h1, h2]
  · intro env h
    rcases h with h | h <;> simp [initialConfig, envOr, h]

/-- C9 witness: an invalid transport value tcp is ignored, leaving the
configuration of the empty argument list. -/
theorem C9_transport_validation_asymmetry_witness :
    parseLoop (initialConfig {}) ["--transport", "tcp"]
      = parseLoop (initialConfig {}) [] :=
  C9_transport_validation_asymmetry.1 (initialConfig {}) "tcp" []
    (by decide) (by decide)

theorem special_not_value (a : String) (h : isSpecialFlag a = true) :
    isValueFlag a = false := by
  simp [isSpecialFlag] at h
  rcases h with ((h | h) | h) | h <;> subst h <;> decide

/-- The scanning loop of parseCliArgs computes the last version or help
flag standing outside a value position, falling back to the accumulated
command and then to the first plain argument outside a value position,
provided no argument and no accumulated command is the empty string. -/
theorem cliGo_eq_spec :
    ∀ (n : Nat) (l : List String), l.length ≤ n → "" ∉ l →
      ∀ c : Option String, c ≠ some "" →
      cliGo l c = (lastSpecialFlag l <|> (c <|> firstPlainCmd l)) := by
  intro n
  induction n with
  | zero =>
    intro l hl _ c _
    have hnil : l = [] := List.length_eq_zero.mp (Nat.le_zero.mp hl)
    subst hnil
    cases c <;> rfl
  | succ n ih =>
    intro l hl hmem c hc
    rcases l with _ | ⟨a, rest⟩
    · cases c <;> rfl
    · have ha : a ≠ "" := fun h => hmem (by simp [h])
      have hrest : "" ∉ rest := fun h => hmem (List.mem_cons_of_mem a h)
      have hlen : rest.length ≤ n := by
        simp [List.length_cons] at hl; omega
      by_cases hs : isSpecialFlag a = true
      · have hv : isValueFlag a = false := special_not_value a hs
        have hrec := ih rest hlen hrest (some a) (fun h => ha (Option.some.inj h))
        rw [show cliGo (a :: rest) c = cliGo rest (some a) by
          rw [cliGo.eq_def]; simp [hs]]
        rw [hrec]
        rw [show lastSpecialFlag (a :: rest) = (lastSpecialFlag rest <|> some a) by
          rw [lastSpecialFlag.eq_def]; simp [hs, hv]]
        rw [show firstPlainCmd (a :: rest) = firstPlainCmd rest by
          rw [firstPlainCmd.eq_def]; simp [hs, hv]]
        cases lastSpecialFlag rest <;> simp
      · by_cases hv : isValueFlag a = true
        · rcases rest with _ | ⟨b, rest2⟩
          · rw [show cliGo [a] c = c by rw [cliGo.eq_def]; simp [hs, hv]]
            rw [show lastSpecialFlag [a] = none by
              rw [lastSpecialFlag.eq_def]; simp [hv]]
            rw [show firstPlainCmd [a] = none by
              rw [firstPlainCmd.eq_def]; simp [hv]]
            cases c <;> simp
          · have hlen2 : rest2.length ≤ n := by
              simp [List.length_cons] at hl; omega
            have hmem2 : "" ∉ rest2 :=
              fun h => hrest (List.mem_cons_of_mem b h)
            have hrec := ih rest2 hlen2 hmem2 c hc
            rw [show cliGo (a :: b :: rest2) c = cliGo rest2 c by
              rw [cliGo.eq_def]; simp [hs, hv]]
            rw [show lastSpecialFlag (a :: b :: rest2) = lastSpecialFlag rest2 by
              rw [lastSpecialFlag.eq_def]; simp [hv]]
            rw [show firstPlainCmd (a :: b :: rest2) = firstPlainCmd rest2 by
              rw [firstPlainCmd.eq_def]; simp [hv]]
            exact hrec
        · by_cases hd : a = "--debug"
          · subst hd
            have hrec := ih rest hlen hrest c hc
            rw [show cliGo ("--debug" :: rest) c = cliGo rest c by
              rw [cliGo.eq_def]; simp [hs, hv]]
            rw [show lastSpecialFlag ("--debug" :: rest) = lastSpecialFlag rest by
              rw [lastSpecialFlag.eq_def]; simp [hs, hv]]
            rw [show firstPlainCmd ("--debug" :: rest) = firstPlainCmd rest by
              rw [firstPlainCmd.eq_def]
              simp [hs, hv, show startsWithDashDash "--debug" = true from rfl]]
            exact hrec
          · by_cases hw : startsWithDashDash a = true
            · have hrec := ih rest hlen hrest c hc
              rw [show cliGo (a :: rest) c = cliGo rest c by
                rw [cliGo.eq_def]; simp [hs, hv, hd, hw]]
              rw [show lastSpecialFlag (a :: rest) = lastSpecialFlag rest by
                rw [lastSpecialFlag.eq_def]; simp [hs, hv]]
              rw [show firstPlainCmd (a :: rest) = firstPlainCmd rest by
                rw [firstPlainCmd.eq_def]; simp [hs, hv, hw]]
              exact hrec
            · have hwf : startsWithDashDash a = false := by
                cases hvv : startsWithDashDash a
                · rfl
                · exact absurd hvv hw
              rcases c with _ | d
              · have hrec := ih rest hlen hrest (some a)
                  (fun h => ha (Option.some.inj h))
                rw [show cliGo (a :: rest) none = cliGo rest (some a) by
                  rw [cliGo.eq_def]; simp [hs, hv, hd, hwf, jsFalsyOpt]]
                rw [hrec]
                rw [show lastSpecialFlag (a :: rest) = lastSpecialFlag rest by
                  rw [lastSpecialFlag.eq_def]; simp [hs, hv]]
                rw [show firstPlainCmd (a :: rest) = some a by
                  rw [firstPlainCmd.eq_def]; simp [hs, hv, hwf]]
                cases lastSpecialFlag rest <;> simp
              · have hd' : d ≠ "" := fun h => hc (by rw [h])
                have hrec := ih rest hlen hrest (some d) hc
                rw [show cliGo (a :: rest) (some d) = cliGo rest (some d) by
                  rw [cliGo.eq_def]; simp [hs, hv, hd, jsFalsyOpt, hd']]
                rw [hrec]
                rw [show lastSpecialFlag (a :: rest) = lastSpecialFlag rest by
                  rw [lastSpecialFlag.eq_def]; simp [hs, hv]]
                rw [show firstPlainCmd (a :: rest) = some a by
                  rw [firstPlainCmd.eq_def]; simp [hs, hv, hwf]]
                cases lastSpecialFlag rest <;> simp

/-- C10 counterexample: parseCliArgs on the list of --version then --help
selects --help, the last special flag, not the first as the claim states,
because the special-flag branch overwrites the command unconditionally. -/
theorem C10_last_help_flag_wins :
    parseCliArgs ["--version", "--help"] = some "--help"
    ∧ ("--help" : String) ≠ "--version" :=
  ⟨rfl, by decide⟩

/-- C10 (amended): for every argument list without empty-string elements,
parseCliArgs selects the last argument that is --version, -v, --help or -h
and does not stand in a value position, the value positions being the
arguments immediately following --transport, --port, --host or
--credentials-file; when there is none, it selects the first argument that
does not start with two dashes, is not one of those four flags and does
not stand in a value position; when no such argument exists the command is
absent and the dispatch runs the default start path, so a command word
placed as a flag value is never executed as a command. -/
theorem C10_cli_command_selection :
    (∀ args : List String, "" ∉ args →
        parseCliArgs args = (lastSpecialFlag args <|> firstPlainCmd args))
    ∧ dispatchTarget none = CliTarget.runMain
    ∧ dispatchTarget (some "start") = CliTarget.runMain := by
  refine ⟨?_, rfl, rfl⟩
  intro args h
  have hgo := cliGo_eq_spec args.length args le_rfl h none (by simp)
  simpa [parseCliArgs] using hgo

/-- C10 witness: the command word auth standing as the value of --host is
skipped, no command is selected, and the start path runs. -/
theorem C10_cli_command_selection_witness :
    parseCliArgs ["--host", "auth"]
      = (lastSpecialFlag ["--host", "auth"] <|> firstPlainCmd ["--host", "auth"]) :=
  C10_cli_command_selection.1 ["--host", "auth"] (by decide)

end GCalMcp
